import Mathlib

/-!
Verification of the Stryktipset prediction engine, a shallow embedding of
the repository sources `prediction_engine.py`, `data_processor.py` and
`supabase_client.py`.

Modelling conventions.  Python floating-point numbers are modelled as exact
rationals.  Python `round(x, 3)` is modelled by `round3`, rounding to the
nearest multiple of `1/1000` with ties going to the even multiple, which is
the tie rule of Python's `round`.  A Python function that can raise an
exception becomes a Lean function into `Option` (`none` means an exception
escapes the call); failures of the external Supabase store are passed in as
an `Except` value.  Python dictionaries that the engine reads are modelled
by structures carrying exactly the fields the engine accesses, with
`Option` for fields that may be absent.
-/

/-- Rounding of a rational to the nearest integer with ties going to the
even integer, the rounding rule used by Python's `round` builtin. -/
def round_half_even (x : ℚ) : ℤ :=
  if x - ⌊x⌋ < 1/2 then ⌊x⌋
  else if 1/2 < x - ⌊x⌋ then ⌊x⌋ + 1
  else if ⌊x⌋ % 2 = 0 then ⌊x⌋ else ⌊x⌋ + 1

/-- Model of Python `round(x, 3)`: round to the nearest thousandth, ties
to even. -/
def round3 (x : ℚ) : ℚ := (round_half_even (1000 * x) : ℚ) / 1000

theorem round_half_even_le (x : ℚ) : (round_half_even x : ℚ) ≤ x + 1/2 := by
  have h1 := Int.floor_le x
  have h2 := Int.lt_floor_add_one x
  unfold round_half_even
  split_ifs <;> push_cast <;> linarith

theorem le_round_half_even (x : ℚ) : x - 1/2 ≤ (round_half_even x : ℚ) := by
  have h1 := Int.floor_le x
  have h2 := Int.lt_floor_add_one x
  unfold round_half_even
  split_ifs <;> push_cast <;> linarith

theorem abs_round3_sub_le (x : ℚ) : |round3 x - x| ≤ 1/2000 := by
  have h1 := round_half_even_le (1000 * x)
  have h2 := le_round_half_even (1000 * x)
  rw [round3, abs_le]
  constructor <;> linarith

theorem round3_nonneg (x : ℚ) (hx : 0 ≤ x) : 0 ≤ round3 x := by
  have h2 := le_round_half_even (1000 * x)
  have h3 : (0 : ℤ) ≤ round_half_even (1000 * x) := by
    by_contra h
    push_neg at h
    have h4 : round_half_even (1000 * x) ≤ -1 := by omega
    have h5 : (round_half_even (1000 * x) : ℚ) ≤ -1 := by exact_mod_cast h4
    linarith
  have h6 : (0 : ℚ) ≤ (round_half_even (1000 * x) : ℚ) := by exact_mod_cast h3
  rw [round3]
  linarith

theorem round3_le_one (x : ℚ) (hx : x ≤ 1) : round3 x ≤ 1 := by
  have h1 := round_half_even_le (1000 * x)
  have h3 : round_half_even (1000 * x) ≤ 1000 := by
    by_contra h
    push_neg at h
    have h4 : (1001 : ℤ) ≤ round_half_even (1000 * x) := by omega
    have h5 : (1001 : ℚ) ≤ (round_half_even (1000 * x) : ℚ) := by exact_mod_cast h4
    linarith
  have h6 : (round_half_even (1000 * x) : ℚ) ≤ 1000 := by exact_mod_cast h3
  rw [round3]
  linarith

theorem round_half_even_eq_of_lt (x : ℚ) (n : ℤ) (h1 : (n : ℚ) ≤ x)
    (h2 : x < (n : ℚ) + 1/2) : round_half_even x = n := by
  have hfl : ⌊x⌋ = n := by
    rw [Int.floor_eq_iff]
    refine ⟨h1, ?_⟩
    linarith
  unfold round_half_even
  rw [hfl, if_pos (by linarith)]

theorem round_half_even_eq_of_gt (x : ℚ) (n : ℤ) (h1 : (n : ℚ) + 1/2 < x)
    (h2 : x < (n : ℚ) + 1) : round_half_even x = n + 1 := by
  have hfl : ⌊x⌋ = n := by
    rw [Int.floor_eq_iff]
    constructor
    · linarith
    · linarith
  unfold round_half_even
  rw [hfl, if_neg (by linarith), if_pos (by linarith)]

theorem round3_eq_of_lt (x : ℚ) (n : ℤ) (h1 : (n : ℚ) ≤ 1000 * x)
    (h2 : 1000 * x < (n : ℚ) + 1/2) : round3 x = (n : ℚ) / 1000 := by
  rw [round3, round_half_even_eq_of_lt (1000 * x) n h1 h2]

theorem round3_eq_of_gt (x : ℚ) (n : ℤ) (h1 : (n : ℚ) + 1/2 < 1000 * x)
    (h2 : 1000 * x < (n : ℚ) + 1) : round3 x = ((n : ℚ) + 1) / 1000 := by
  rw [round3, round_half_even_eq_of_gt (1000 * x) n h1 h2]
  push_cast
  ring

/-!
Data model.  A match record is a Python dict; the prediction engine reads
the keys `home_team_history`, `away_team_history` and `odds`, each of which
may be absent.  A team-history dict carries the `recent_form` list (the
other keys are never read by the engine).  An odds dict carries the three
price keys, each possibly absent, plus possibly further keys such as
`source` and `last_updated`; `otherKeys` records whether any such further
key is present, which matters because Python's `if not odds:` test
distinguishes an empty dict from a non-empty one.
-/

structure TeamHistory where
  recent_form : List ℚ
deriving Repr, DecidableEq

structure OddsDict where
  home_win : Option ℚ
  draw : Option ℚ
  away_win : Option ℚ
  otherKeys : Bool
deriving Repr, DecidableEq

/-- Python truthiness of the odds dict: `not odds` holds exactly when the
dict has no keys at all. -/
def OddsDict.isFalsy (o : OddsDict) : Bool :=
  o.home_win.isNone && o.draw.isNone && o.away_win.isNone && !o.otherKeys

structure Match where
  home_team_history : Option TeamHistory
  away_team_history : Option TeamHistory
  odds : Option OddsDict
deriving Repr, DecidableEq

/-- Reading `match.get('home_team_history', {}).get('recent_form', [])`:
an absent history dict yields the empty list. -/
def histForm (h : Option TeamHistory) : List ℚ :=
  (h.map TeamHistory.recent_form).getD []

/-- Result of one prediction model: the dict
`{'home_prob': _, 'draw_prob': _, 'away_prob': _, 'confidence': _}`. -/
structure Prediction where
  home_prob : ℚ
  draw_prob : ℚ
  away_prob : ℚ
  confidence : ℚ
deriving Repr, DecidableEq

/-- Fixed weight sequence `np.array([1.0, 0.8, 0.6, 0.4, 0.2])` of
`calculate_form_score`. -/
def formWeights : List ℚ := [1, 4/5, 3/5, 2/5, 1/5]

/-- Embedding of `StryktipsetPredictor.calculate_form_score`.  The weights
are the prefix `weights[:len(recent_form)]`; `np.average` computes the
weighted sum divided by the weight sum, and raises when the two arrays
have different lengths (which happens exactly when the input has more than
five entries), modelled by `none`. -/
def calculate_form_score (recent_form : List ℚ) : Option ℚ :=
  if recent_form = [] then some (1/2)
  else
    let weights := formWeights.take recent_form.length
    if recent_form.length = weights.length then
      some ((List.zipWith (fun w x => w * x) weights recent_form).sum / weights.sum)
    else none

/-!
Round numbering (`get_current_round_number`, identical in
`prediction_engine.py` and `data_processor.py`).  Dates are modelled by
their proleptic Gregorian ordinal (Python `date.toordinal`), so that
ordinal 1 is a Monday and Python's `weekday()` (Monday = 0) of an ordinal
`d` is `(d - 1) % 7`.  The function takes the ordinal of March 1 of the
current year and the ordinal of "now".
-/

def weekday (d : ℤ) : ℤ := (d - 1) % 7

/-- Value of `march_first + timedelta(days=(5 - march_first.weekday()) % 7)`. -/
def first_saturday (march_first : ℤ) : ℤ :=
  march_first + (5 - weekday march_first) % 7

/-- Embedding of `get_current_round_number` (both copies). -/
def get_current_round_number (march_first now : ℤ) : ℤ :=
  if now < first_saturday march_first then 1
  else min ((now - first_saturday march_first) / 7 + 1) 35

/-- Embedding of `StryktipsetPredictor.predict_match_form_based`. -/
def predict_match_form_based (m : Match) : Option Prediction := do
  let home_form ← calculate_form_score (histForm m.home_team_history)
  let away_form ← calculate_form_score (histForm m.away_team_history)
  let home_advantage : ℚ := 1/10
  let adjusted_home_form := home_form + home_advantage
  let total_strength := adjusted_home_form + away_form
  if total_strength = 0 then
    some ⟨round3 (45/100), round3 (25/100), round3 (30/100),
      round3 |home_form - away_form|⟩
  else
    let home_prob := adjusted_home_form / total_strength * (7/10) + 15/100
    let away_prob := away_form / total_strength * (7/10) + 15/100
    let draw_prob := max (1/10) (1 - home_prob - away_prob)
    let total := home_prob + draw_prob + away_prob
    if total = 0 then none
    else
      some ⟨round3 (home_prob / total), round3 (draw_prob / total),
        round3 (away_prob / total), round3 |home_form - away_form|⟩

/-- Implied-probability computation of `predict_match_odds_based` once the
three prices are in hand: invert each price, normalize away the overround,
round; the confidence is one minus the smallest normalized probability.  A
zero price or a zero total would raise `ZeroDivisionError`, modelled by
`none`. -/
def oddsComputation (home_odds draw_odds away_odds : ℚ) : Option Prediction :=
  if home_odds = 0 ∨ draw_odds = 0 ∨ away_odds = 0 then none
  else
    let home_prob := 1 / home_odds
    let draw_prob := 1 / draw_odds
    let away_prob := 1 / away_odds
    let total_prob := home_prob + draw_prob + away_prob
    if total_prob = 0 then none
    else
      some ⟨round3 (home_prob / total_prob), round3 (draw_prob / total_prob),
        round3 (away_prob / total_prob),
        round3 (1 - min (home_prob / total_prob)
          (min (draw_prob / total_prob) (away_prob / total_prob)))⟩

/-- Python `{}`, the default of `match.get('odds', {})`. -/
def emptyOddsDict : OddsDict := ⟨none, none, none, false⟩

/-- Embedding of `StryktipsetPredictor.predict_match_odds_based`: fall back
to the form model when the odds dict is absent or empty, otherwise read the
three prices with defaults `2.0`, `3.0`, `2.0` and compute implied
probabilities. -/
def predict_match_odds_based (m : Match) : Option Prediction :=
  let odds := m.odds.getD emptyOddsDict
  if odds.isFalsy then predict_match_form_based m
  else oddsComputation (odds.home_win.getD 2) (odds.draw.getD 3) (odds.away_win.getD 2)

/-- Embedding of `StryktipsetPredictor.predict_match_hybrid`: componentwise
blend `0.6 * odds + 0.4 * form` of the two rounded predictions, confidence
the plain average, all rounded to three decimals. -/
def predict_match_hybrid (m : Match) : Option Prediction := do
  let form_prediction ← predict_match_form_based m
  let odds_prediction ← predict_match_odds_based m
  let home_prob := 6/10 * odds_prediction.home_prob + 4/10 * form_prediction.home_prob
  let draw_prob := 6/10 * odds_prediction.draw_prob + 4/10 * form_prediction.draw_prob
  let away_prob := 6/10 * odds_prediction.away_prob + 4/10 * form_prediction.away_prob
  let confidence := (odds_prediction.confidence + form_prediction.confidence) / 2
  some ⟨round3 home_prob, round3 draw_prob, round3 away_prob, round3 confidence⟩

/-- Python `max(probs, key=probs.get)` over the insertion-ordered dict
`{'1': home_prob, 'X': draw_prob, '2': away_prob}`: scan the keys in
insertion order, replacing the current best only on a strictly larger
value, so an exact tie keeps the earlier key. -/
def maxSymbol (prediction : Prediction) : Char :=
  let best1 : Char × ℚ := ('1', prediction.home_prob)
  let best2 : Char × ℚ :=
    if prediction.draw_prob > best1.2 then ('X', prediction.draw_prob) else best1
  let best3 : Char × ℚ :=
    if prediction.away_prob > best2.2 then ('2', prediction.away_prob) else best2
  best3.1

/-- Embedding of `StryktipsetPredictor.get_match_prediction`, returning the
Python pair `(predicted_result, prediction)`. -/
def get_match_prediction (m : Match) (method : String) : Option (Char × Prediction) :=
  let prediction? :=
    if method = "form_based" then predict_match_form_based m
    else if method = "odds_based" then predict_match_odds_based m
    else predict_match_hybrid m
  prediction?.map fun p => (maxSymbol p, p)

/-- One betting combination, the dict built by
`generate_stryktipset_combinations`. -/
structure PredictionCombination where
  method : String
  combination : List Char
  description : String
  confidence : String
deriving Repr, DecidableEq

/-- Sequential traversal of a Python `for` loop whose body can raise: apply
`f` left to right collecting the results, stopping at the first raise. -/
def traverseOption {α β : Type} (f : α → Option β) : List α → Option (List β)
  | [] => some []
  | a :: as => do
    let b ← f a
    let bs ← traverseOption f as
    some (b :: bs)

/-- Per-match pick of the Conservative method (the body of the second loop
of `generate_stryktipset_combinations`). -/
def conservativeChoice (details : Prediction) : Char :=
  if details.draw_prob > 25/100 then 'X'
  else if details.home_prob > details.away_prob then '1'
  else '2'

/-- Per-match pick of the Value Betting method (the body of the third loop
of `generate_stryktipset_combinations`), given the form-based and
odds-based results of `get_match_prediction`. -/
def valueChoice (form_result odds_result : Char × Prediction) : Char :=
  if form_result.1 ≠ odds_result.1 ∧ form_result.2.confidence > 3/10 then form_result.1
  else odds_result.1

/-- Embedding of `StryktipsetPredictor.generate_stryktipset_combinations`. -/
def generate_stryktipset_combinations (matchList : List Match) :
    Option (List PredictionCombination) := do
  let hybridResults ← traverseOption (fun m => get_match_prediction m "hybrid") matchList
  let hybrid_combo := hybridResults.map Prod.fst
  let conservativeResults ← traverseOption (fun m => get_match_prediction m "hybrid") matchList
  let conservative_combo := conservativeResults.map fun r => conservativeChoice r.2
  let value_combo ← traverseOption (fun m => do
    let form_result ← get_match_prediction m "form_based"
    let odds_result ← get_match_prediction m "odds_based"
    some (valueChoice form_result odds_result)) matchList
  some [⟨"Hybrid Prediction", hybrid_combo,
          "Most likely outcome for each match", "Medium"⟩,
        ⟨"Conservative", conservative_combo,
          "Safer picks favoring draws and home wins", "High"⟩,
        ⟨"Value Betting", value_combo,
          "Looking for odds vs form discrepancies", "Low"⟩]

/-- Embedding of `StryktipsetPredictor.load_current_matches`.  The argument
is the outcome of the Supabase read (`result.data`, or the exception it
raised).  The `except` clause catches any store failure, prints, and
returns the empty list, so a failed read and an empty table are both the
empty list to the caller. -/
def load_current_matches (readResult : Except String (List Match)) : List Match :=
  match readResult with
  | Except.ok ms => ms
  | Except.error _ => []

/-- Embedding of `StryktipsetPredictor.run_prediction_engine`.  The first
argument is the outcome of the store read, the second the outcome of the
delete-then-insert of `store_predictions`.  `Except.ok none` is the
early return of the empty-input path (no predictions generated);
`Except.error` is an exception re-raised by the top-level handler. -/
def run_prediction_engine (readResult : Except String (List Match))
    (storeOutcome : Except String Unit) :
    Except String (Option (List PredictionCombination)) :=
  let matchList := load_current_matches readResult
  if matchList.isEmpty then Except.ok none
  else
    match generate_stryktipset_combinations matchList with
    | none => Except.error "TypeError"
    | some predictions =>
      match storeOutcome with
      | Except.error e => Except.error e
      | Except.ok _ => Except.ok (some predictions)

/-- Look up the probability the dict `probs` of `get_match_prediction`
assigns to an outcome symbol. -/
def probOf (c : Char) (p : Prediction) : ℚ :=
  if c = '1' then p.home_prob else if c = 'X' then p.draw_prob else p.away_prob

/-- A recent-form list as the data model describes it: at most five games,
each coded 1 (win), 0.5 (draw) or 0 (loss). -/
def ValidHistory (l : List ℚ) : Prop :=
  l.length ≤ 5 ∧ ∀ x ∈ l, x = 0 ∨ x = 1/2 ∨ x = 1

/-- Every price actually present in an odds dict is positive, as decimal
betting prices are. -/
def OddsDict.validPrices (o : OddsDict) : Prop :=
  (∀ q ∈ o.home_win, 0 < q) ∧ (∀ q ∈ o.draw, 0 < q) ∧ (∀ q ∈ o.away_win, 0 < q)

/-- A match record whose optional parts conform to the data model. -/
def ValidMatch (m : Match) : Prop :=
  ValidHistory (histForm m.home_team_history)
  ∧ ValidHistory (histForm m.away_team_history)
  ∧ ∀ o ∈ m.odds, o.validPrices

/-- The components of a returned probability triple lie in `[0, 1]` and
sum to 1 within `eps`. -/
def GoodTriple (p : Prediction) (eps : ℚ) : Prop :=
  0 ≤ p.home_prob ∧ p.home_prob ≤ 1
  ∧ 0 ≤ p.draw_prob ∧ p.draw_prob ≤ 1
  ∧ 0 ≤ p.away_prob ∧ p.away_prob ≤ 1
  ∧ |p.home_prob + p.draw_prob + p.away_prob - 1| ≤ eps

/-!
Claim C5: round numbering.
-/

/-- Claim C5: with the season start equal to the first Saturday on or after
March 1, computed via the offset `(5 - weekday_of_march_1) % 7`, the
round-number function returns 1 for any date up to and including the season
start, returns 2 for the date exactly 7 days after the season start, and
for every date on or after the season start returns
`floor(days_since_start / 7) + 1` clamped above at 35. -/
theorem c5_round_number (march_first now : ℤ) :
    (now ≤ first_saturday march_first →
       get_current_round_number march_first now = 1)
    ∧ get_current_round_number march_first (first_saturday march_first + 7) = 2
    ∧ (first_saturday march_first ≤ now →
       get_current_round_number march_first now
         = min ((now - first_saturday march_first) / 7 + 1) 35) := by
  unfold get_current_round_number first_saturday weekday
  refine ⟨?_, ?_, ?_⟩ <;> split <;> omega

/-- Witness for C5 at March 1, 2025 (ordinal 739311, itself a Saturday):
the season start, a date before it, and a date after it. -/
theorem c5_round_number_witness :
    get_current_round_number 739311 739311 = 1
    ∧ get_current_round_number 739311 (first_saturday 739311 + 7) = 2
    ∧ get_current_round_number 739311 739400
        = min ((739400 - first_saturday 739311) / 7 + 1) 35 :=
  ⟨(c5_round_number 739311 739311).1 (by decide),
   (c5_round_number 739311 739311).2.1,
   (c5_round_number 739311 739400).2.2 (by decide)⟩

/-!
Claims C6 and C9: the form score.
-/

theorem zipWith_mul_sum_nonneg :
    ∀ (ws xs : List ℚ), (∀ w ∈ ws, 0 ≤ w) → (∀ x ∈ xs, 0 ≤ x) →
      0 ≤ (List.zipWith (fun w x => w * x) ws xs).sum := by
  intro ws
  induction ws with
  | nil => intro xs _ _; simp
  | cons w ws ih =>
    intro xs hw hx
    cases xs with
    | nil => simp
    | cons x xs =>
      simp only [List.zipWith_cons_cons, List.sum_cons]
      have h1 : 0 ≤ w := hw w (by simp)
      have h2 : 0 ≤ x := hx x (by simp)
      have h3 := ih xs (fun a ha => hw a (by simp [ha])) (fun a ha => hx a (by simp [ha]))
      have h4 : 0 ≤ w * x := mul_nonneg h1 h2
      linarith

theorem zipWith_mul_sum_le :
    ∀ (ws xs : List ℚ), (∀ w ∈ ws, 0 ≤ w) → (∀ x ∈ xs, x ≤ 1) →
      (List.zipWith (fun w x => w * x) ws xs).sum ≤ ws.sum := by
  intro ws
  induction ws with
  | nil => intro xs _ _; simp
  | cons w ws ih =>
    intro xs hw hx
    cases xs with
    | nil =>
      simp only [List.zipWith_nil_right, List.sum_nil]
      exact List.sum_nonneg fun a ha => hw a ha
    | cons x xs =>
      simp only [List.zipWith_cons_cons, List.sum_cons]
      have h1 : 0 ≤ w := hw w (by simp)
      have h2 : x ≤ 1 := hx x (by simp)
      have h3 := ih xs (fun a ha => hw a (by simp [ha])) (fun a ha => hx a (by simp [ha]))
      have h4 : w * x ≤ w := mul_le_of_le_one_right h1 h2
      linarith

theorem formWeights_take_length (n : ℕ) (hn : n ≤ 5) :
    (formWeights.take n).length = n := by
  rw [List.length_take]
  simp only [formWeights, List.length_cons, List.length_nil]
  omega

theorem formWeights_nonneg : ∀ w ∈ formWeights, 0 ≤ w := by
  intro w hw
  fin_cases hw <;> norm_num

/-- Claim C6: the form score of the empty recent-form sequence is exactly
`0.5`; for every non-empty sequence of length at most five with entries in
`{0, 0.5, 1}` the form score is the weighted average over the matching
prefix of the weights `[1.0, 0.8, 0.6, 0.4, 0.2]` (first weight on the
most recent game, the head of the list), and it lies in `[0, 1]`. -/
theorem c6_form_score :
    calculate_form_score [] = some (1/2)
    ∧ ∀ l : List ℚ, l ≠ [] → l.length ≤ 5 →
        (∀ x ∈ l, x = 0 ∨ x = 1/2 ∨ x = 1) →
        calculate_form_score l
          = some ((List.zipWith (fun w x => w * x) (formWeights.take l.length) l).sum
              / (formWeights.take l.length).sum)
        ∧ ∀ s, calculate_form_score l = some s → 0 ≤ s ∧ s ≤ 1 := by
  constructor
  · simp [calculate_form_score]
  intro l h1 h2 h3
  have hlen := formWeights_take_length l.length h2
  have heq : calculate_form_score l
      = some ((List.zipWith (fun w x => w * x) (formWeights.take l.length) l).sum
          / (formWeights.take l.length).sum) := by
    unfold calculate_form_score
    rw [if_neg h1, if_pos hlen.symm]
  refine ⟨heq, ?_⟩
  intro s hs
  rw [heq] at hs
  have hsval := Option.some_injective _ hs
  have hw : ∀ w ∈ formWeights.take l.length, 0 ≤ w :=
    fun w hwm => formWeights_nonneg w (List.take_subset _ _ hwm)
  have hx0 : ∀ x ∈ l, 0 ≤ x := by
    intro x hx
    rcases h3 x hx with rfl | rfl | rfl <;> norm_num
  have hx1 : ∀ x ∈ l, x ≤ 1 := by
    intro x hx
    rcases h3 x hx with rfl | rfl | rfl <;> norm_num
  have hWpos : 0 < (formWeights.take l.length).sum := by
    have hlb : 1 ≤ l.length := List.length_pos.mpr h1
    set n := l.length with hn
    interval_cases n <;> norm_num [formWeights]
  have hS0 := zipWith_mul_sum_nonneg (formWeights.take l.length) l hw hx0
  have hSW := zipWith_mul_sum_le (formWeights.take l.length) l hw hx1
  rw [← hsval]
  exact ⟨div_nonneg hS0 hWpos.le, (div_le_one hWpos).mpr hSW⟩

/-- Witness for C6 at the concrete sequence `[1, 0, 0.5]` (a win, a loss,
a draw, most recent first). -/
theorem c6_form_score_witness :
    calculate_form_score [1, 0, 1/2]
      = some ((List.zipWith (fun w x => w * x)
          (formWeights.take ([1, 0, (1/2 : ℚ)].length)) [1, 0, 1/2]).sum
            / (formWeights.take ([1, 0, (1/2 : ℚ)].length)).sum)
    ∧ ∀ s, calculate_form_score [1, 0, 1/2] = some s → 0 ≤ s ∧ s ≤ 1 :=
  c6_form_score.2 [1, 0, 1/2] (by simp) (by simp)
    (by intro x hx; fin_cases hx <;> norm_num)

/-- Claim C9: for every recent-form sequence with six or more entries the
weight array (truncated at five entries) no longer matches the input shape,
`np.average` raises, and no form score is returned. -/
theorem c9_form_score_long_input (l : List ℚ) (h : 6 ≤ l.length) :
    calculate_form_score l = none := by
  have hne : l ≠ [] := by
    intro he
    rw [he] at h
    simp at h
  have hlen : (formWeights.take l.length).length = 5 := by
    rw [List.length_take]
    simp only [formWeights, List.length_cons, List.length_nil]
    omega
  unfold calculate_form_score
  rw [if_neg hne, if_neg]
  rw [hlen]
  omega

/-- Witness for C9 at a concrete six-game sequence. -/
theorem c9_form_score_long_input_witness :
    calculate_form_score [0, 0, 0, 0, 0, 0] = none :=
  c9_form_score_long_input [0, 0, 0, 0, 0, 0] (by simp)

/-!
Claim C4: outcome selection and its tie-break.
-/

theorem maxSymbol_eq_one (p : Prediction) (h1 : p.draw_prob ≤ p.home_prob)
    (h2 : p.away_prob ≤ p.home_prob) : maxSymbol p = '1' := by
  simp only [maxSymbol]
  rw [if_neg (not_lt.mpr h1), if_neg (not_lt.mpr h2)]

theorem maxSymbol_eq_draw (p : Prediction) (h1 : p.home_prob < p.draw_prob)
    (h2 : p.away_prob ≤ p.draw_prob) : maxSymbol p = 'X' := by
  simp only [maxSymbol]
  rw [if_pos h1, if_neg (not_lt.mpr h2)]

theorem maxSymbol_eq_two (p : Prediction)
    (h : max p.home_prob p.draw_prob < p.away_prob) : maxSymbol p = '2' := by
  simp only [maxSymbol]
  rcases le_or_lt p.draw_prob p.home_prob with h1 | h1
  · rw [if_neg (not_lt.mpr h1), if_pos (by rw [max_eq_left h1] at h; exact h)]
  · rw [if_pos h1, if_pos (by rw [max_eq_right h1.le] at h; exact h)]

theorem get_match_prediction_fst (m : Match) (method : String)
    (r : Char × Prediction) (h : get_match_prediction m method = some r) :
    r.1 = maxSymbol r.2 := by
  unfold get_match_prediction at h
  rw [Option.map_eq_some'] at h
  obtain ⟨p, _, hpr⟩ := h
  rw [← hpr]

/-- Claim C4: `get_match_prediction` selects via `maxSymbol`; the selected
symbol always carries the maximal probability of the triple, exact ties are
broken in the order home, draw, away, and in particular the triple
`(0.4, 0.4, 0.2)` selects the home symbol `'1'`. -/
theorem c4_outcome_selection (p : Prediction) :
    (∀ (m : Match) (method : String) (r : Char × Prediction),
       get_match_prediction m method = some r → r.1 = maxSymbol r.2)
    ∧ probOf (maxSymbol p) p = max p.home_prob (max p.draw_prob p.away_prob)
    ∧ (p.draw_prob ≤ p.home_prob → p.away_prob ≤ p.home_prob → maxSymbol p = '1')
    ∧ (p.home_prob < p.draw_prob → p.away_prob ≤ p.draw_prob → maxSymbol p = 'X')
    ∧ (max p.home_prob p.draw_prob < p.away_prob → maxSymbol p = '2')
    ∧ ∀ c : ℚ, maxSymbol ⟨2/5, 2/5, 1/5, c⟩ = '1' := by
  refine ⟨fun m method r hr => get_match_prediction_fst m method r hr, ?_,
    maxSymbol_eq_one p, maxSymbol_eq_draw p, maxSymbol_eq_two p, ?_⟩
  · rcases le_or_lt p.draw_prob p.home_prob with h1 | h1
    · rcases le_or_lt p.away_prob p.home_prob with h2 | h2
      · rw [maxSymbol_eq_one p h1 h2, max_eq_left (max_le h1 h2)]
        simp [probOf]
      · rw [maxSymbol_eq_two p (by rw [max_eq_left h1]; exact h2)]
        rw [max_eq_right (le_of_lt (lt_of_le_of_lt h1 h2)), max_eq_right h2.le]
        simp [probOf]
    · rcases le_or_lt p.away_prob p.draw_prob with h2 | h2
      · rw [maxSymbol_eq_draw p h1 h2, max_eq_left h2, max_eq_right h1.le]
        simp [probOf]
      · rw [maxSymbol_eq_two p (by rw [max_eq_right h1.le]; exact h2)]
        rw [max_eq_right h2.le, max_eq_right (h1.trans h2).le]
        simp [probOf]
  · intro c
    exact maxSymbol_eq_one ⟨2/5, 2/5, 1/5, c⟩ (by norm_num) (by norm_num)

/-- Witness for C4: the tie triple `(0.4, 0.4, 0.2)` selects home, a strict
draw maximum selects `'X'`, a strict away maximum selects `'2'`. -/
theorem c4_outcome_selection_witness :
    maxSymbol ⟨2/5, 2/5, 1/5, 0⟩ = '1'
    ∧ maxSymbol ⟨1/5, 3/5, 1/5, 0⟩ = 'X'
    ∧ maxSymbol ⟨1/5, 1/5, 3/5, 0⟩ = '2' :=
  ⟨(c4_outcome_selection ⟨2/5, 2/5, 1/5, 0⟩).2.2.1 (by norm_num) (by norm_num),
   (c4_outcome_selection ⟨1/5, 3/5, 1/5, 0⟩).2.2.2.1 (by norm_num) (by norm_num),
   (c4_outcome_selection ⟨1/5, 1/5, 3/5, 0⟩).2.2.2.2.1 (by norm_num)⟩

/-!
Claim C8: the Conservative pick.
-/

/-- Claim C8: the Conservative combination picks the draw symbol whenever
the hybrid draw probability is strictly greater than 0.25 regardless of the
other two probabilities (in particular at draw probability 0.30); otherwise
home when the hybrid home probability strictly exceeds the away one, and
away otherwise. -/
theorem c8_conservative (p : Prediction) :
    (25/100 < p.draw_prob → conservativeChoice p = 'X')
    ∧ (p.draw_prob ≤ 25/100 → p.away_prob < p.home_prob → conservativeChoice p = '1')
    ∧ (p.draw_prob ≤ 25/100 → p.home_prob ≤ p.away_prob → conservativeChoice p = '2')
    ∧ (p.draw_prob = 30/100 → conservativeChoice p = 'X') := by
  unfold conservativeChoice
  refine ⟨?_, ?_, ?_, ?_⟩
  · intro h
    rw [if_pos h]
  · intro h1 h2
    rw [if_neg (not_lt.mpr h1), if_pos h2]
  · intro h1 h2
    rw [if_neg (not_lt.mpr h1), if_neg (not_lt.mpr h2)]
  · intro h
    rw [if_pos (by rw [h]; norm_num)]

/-- Witness for C8: concrete hybrid triples for all four cases, including
draw probability exactly 0.30 with a dominant home probability. -/
theorem c8_conservative_witness :
    conservativeChoice ⟨6/10, 3/10, 1/10, 0⟩ = 'X'
    ∧ conservativeChoice ⟨5/10, 2/10, 3/10, 0⟩ = '1'
    ∧ conservativeChoice ⟨3/10, 2/10, 5/10, 0⟩ = '2'
    ∧ conservativeChoice ⟨65/100, 30/100, 5/100, 0⟩ = 'X' :=
  ⟨(c8_conservative ⟨6/10, 3/10, 1/10, 0⟩).1 (by norm_num),
   (c8_conservative ⟨5/10, 2/10, 3/10, 0⟩).2.1 (by norm_num) (by norm_num),
   (c8_conservative ⟨3/10, 2/10, 5/10, 0⟩).2.2.1 (by norm_num) (by norm_num),
   (c8_conservative ⟨65/100, 30/100, 5/100, 0⟩).2.2.2 (by norm_num)⟩

/-!
Claim C10: default prices for a present but incomplete odds dict.
-/

/-- Claim C10: when the odds dict is present and non-empty, the odds model
does not fall back to the form model; it reads each price with
`odds.get(key, default)` using the defaults 2.0 for home win, 3.0 for draw
and 2.0 for away win, and runs the implied-probability computation on the
resulting prices. -/
theorem c10_odds_defaults (m : Match) (o : OddsDict) (hm : m.odds = some o)
    (hne : o.home_win.isSome = true ∨ o.draw.isSome = true
      ∨ o.away_win.isSome = true ∨ o.otherKeys = true) :
    predict_match_odds_based m
      = oddsComputation (o.home_win.getD 2) (o.draw.getD 3) (o.away_win.getD 2) := by
  have hf : o.isFalsy = false := by
    rcases hne with h | h | h | h
    · rw [Option.isSome_iff_exists] at h
      obtain ⟨v, hv⟩ := h
      simp [OddsDict.isFalsy, hv]
    · rw [Option.isSome_iff_exists] at h
      obtain ⟨v, hv⟩ := h
      simp [OddsDict.isFalsy, hv]
    · rw [Option.isSome_iff_exists] at h
      obtain ⟨v, hv⟩ := h
      simp [OddsDict.isFalsy, hv]
    · simp [OddsDict.isFalsy, h]
  unfold predict_match_odds_based
  rw [hm]
  simp only [Option.getD_some, hf, Bool.false_eq_true, if_false]

/-- Witness for C10: an odds dict holding only an away price (plus the
`source` and `last_updated` keys) is filled up with the default home and
draw prices. -/
theorem c10_odds_defaults_witness :
    predict_match_odds_based ⟨none, none, some ⟨none, none, some (16/10), true⟩⟩
      = oddsComputation 2 3 (16/10) :=
  c10_odds_defaults ⟨none, none, some ⟨none, none, some (16/10), true⟩⟩
    ⟨none, none, some (16/10), true⟩ rfl (Or.inr (Or.inr (Or.inl rfl)))

/-!
Claim C1: probability triples of the three models.
-/

theorem GoodTriple.mono {p : Prediction} {e1 e2 : ℚ} (h : GoodTriple p e1)
    (he : e1 ≤ e2) : GoodTriple p e2 := by
  obtain ⟨h1, h2, h3, h4, h5, h6, h7⟩ := h
  exact ⟨h1, h2, h3, h4, h5, h6, h7.trans he⟩

theorem calculate_form_score_valid (l : List ℚ) (hl : ValidHistory l) :
    ∃ s, calculate_form_score l = some s ∧ 0 ≤ s ∧ s ≤ 1 := by
  rcases eq_or_ne l [] with rfl | hne
  · exact ⟨1/2, by simp [calculate_form_score], by norm_num, by norm_num⟩
  obtain ⟨h2, h3⟩ := hl
  have hlen := formWeights_take_length l.length h2
  have hw : ∀ w ∈ formWeights.take l.length, 0 ≤ w :=
    fun w hwm => formWeights_nonneg w (List.take_subset _ _ hwm)
  have hx0 : ∀ x ∈ l, 0 ≤ x := by
    intro x hx
    rcases h3 x hx with rfl | rfl | rfl <;> norm_num
  have hx1 : ∀ x ∈ l, x ≤ 1 := by
    intro x hx
    rcases h3 x hx with rfl | rfl | rfl <;> norm_num
  have hWpos : 0 < (formWeights.take l.length).sum := by
    have hlb : 1 ≤ l.length := List.length_pos.mpr hne
    set n := l.length with hn
    interval_cases n <;> norm_num [formWeights]
  refine ⟨(List.zipWith (fun w x => w * x) (formWeights.take l.length) l).sum
      / (formWeights.take l.length).sum, ?_, ?_, ?_⟩
  · unfold calculate_form_score
    rw [if_neg hne, if_pos hlen.symm]
  · exact div_nonneg (zipWith_mul_sum_nonneg _ _ hw hx0) hWpos.le
  · exact (div_le_one hWpos).mpr (zipWith_mul_sum_le _ _ hw hx1)

theorem rounded_triple_bounds (x y z eps : ℚ) (hx0 : 0 ≤ x) (hx1 : x ≤ 1)
    (hy0 : 0 ≤ y) (hy1 : y ≤ 1) (hz0 : 0 ≤ z) (hz1 : z ≤ 1)
    (hs : |x + y + z - 1| ≤ eps) (c : ℚ) :
    GoodTriple ⟨round3 x, round3 y, round3 z, c⟩ (eps + 3/2000) := by
  have hax := abs_round3_sub_le x
  have hay := abs_round3_sub_le y
  have haz := abs_round3_sub_le z
  rw [abs_le] at hax hay haz hs
  unfold GoodTriple
  dsimp only
  refine ⟨round3_nonneg x hx0, round3_le_one x hx1, round3_nonneg y hy0,
    round3_le_one y hy1, round3_nonneg z hz0, round3_le_one z hz1, ?_⟩
  rw [abs_le]
  constructor <;> linarith

theorem predict_match_form_based_eq (m : Match) (sh sa hp ap dp tot : ℚ)
    (hsh : calculate_form_score (histForm m.home_team_history) = some sh)
    (hsa : calculate_form_score (histForm m.away_team_history) = some sa)
    (hne : sh + 1/10 + sa ≠ 0)
    (hhp : hp = (sh + 1/10) / (sh + 1/10 + sa) * (7/10) + 15/100)
    (hap : ap = sa / (sh + 1/10 + sa) * (7/10) + 15/100)
    (hdp : dp = max (1/10) (1 - hp - ap))
    (htot : tot = hp + dp + ap)
    (htne : tot ≠ 0) :
    predict_match_form_based m
      = some ⟨round3 (hp / tot), round3 (dp / tot), round3 (ap / tot),
          round3 |sh - sa|⟩ := by
  subst hhp
  subst hap
  subst hdp
  subst htot
  unfold predict_match_form_based
  rw [hsh, hsa]
  simp only [Option.bind_eq_bind, Option.some_bind]
  rw [if_neg hne, if_neg htne]

theorem predict_match_form_based_good (m : Match) (hm : ValidMatch m) :
    ∃ p, predict_match_form_based m = some p ∧ GoodTriple p (3/2000) := by
  obtain ⟨hmh, hma, _⟩ := hm
  obtain ⟨sh, hsh, hsh0, hsh1⟩ := calculate_form_score_valid _ hmh
  obtain ⟨sa, hsa, hsa0, hsa1⟩ := calculate_form_score_valid _ hma
  have htpos : (0 : ℚ) < sh + 1/10 + sa := by linarith
  have hne : sh + 1/10 + sa ≠ 0 := htpos.ne'
  obtain ⟨hp, hhp⟩ : ∃ hp : ℚ, hp = (sh + 1/10) / (sh + 1/10 + sa) * (7/10) + 15/100 :=
    ⟨_, rfl⟩
  obtain ⟨ap, hap⟩ : ∃ ap : ℚ, ap = sa / (sh + 1/10 + sa) * (7/10) + 15/100 :=
    ⟨_, rfl⟩
  have hsum : hp + ap = 1 := by
    rw [hhp, hap]
    field_simp
    ring
  have hp0 : 0 ≤ hp := by
    have h1 : 0 ≤ (sh + 1/10) / (sh + 1/10 + sa) := div_nonneg (by linarith) htpos.le
    have h2 := mul_nonneg h1 (show (0 : ℚ) ≤ 7/10 by norm_num)
    rw [hhp]
    linarith
  have ap0 : 0 ≤ ap := by
    have h1 : 0 ≤ sa / (sh + 1/10 + sa) := div_nonneg hsa0 htpos.le
    have h2 := mul_nonneg h1 (show (0 : ℚ) ≤ 7/10 by norm_num)
    rw [hap]
    linarith
  have hdp : max (1/10) (1 - hp - ap) = 1/10 := by
    rw [show (1 : ℚ) - hp - ap = 0 from by linarith]
    exact max_eq_left (by norm_num)
  have htne : hp + max (1/10) (1 - hp - ap) + ap ≠ 0 := by
    rw [hdp]
    intro hcon
    linarith
  refine ⟨_, predict_match_form_based_eq m sh sa hp ap
      (max (1/10) (1 - hp - ap)) (hp + max (1/10) (1 - hp - ap) + ap)
      hsh hsa hne hhp hap rfl rfl htne, ?_⟩
  rw [hdp]
  rw [show hp + 1/10 + ap = 11/10 from by linarith]
  have hx0 : 0 ≤ hp / (11/10) := div_nonneg hp0 (by norm_num)
  have hx1 : hp / (11/10) ≤ 1 := by
    rw [div_le_one (by norm_num)]
    linarith
  have hz0 : 0 ≤ ap / (11/10) := div_nonneg ap0 (by norm_num)
  have hz1 : ap / (11/10) ≤ 1 := by
    rw [div_le_one (by norm_num)]
    linarith
  have hsum3 : hp / (11/10) + (1/10) / (11/10) + ap / (11/10) - 1 = 0 := by
    field_simp
    linarith
  have hres := rounded_triple_bounds (hp / (11/10)) ((1/10) / (11/10)) (ap / (11/10)) 0
    hx0 hx1 (by norm_num) (by norm_num) hz0 hz1
    (by rw [abs_le]; constructor <;> linarith) (round3 |sh - sa|)
  rw [show (0 : ℚ) + 3/2000 = 3/2000 from by norm_num] at hres
  exact hres

theorem oddsComputation_good (ho dd ao : ℚ) (h1 : 0 < ho) (h2 : 0 < dd)
    (h3 : 0 < ao) : ∃ p, oddsComputation ho dd ao = some p ∧ GoodTriple p (3/2000) := by
  have hi1 : 0 < 1/ho := by positivity
  have hi2 : 0 < 1/dd := by positivity
  have hi3 : 0 < 1/ao := by positivity
  have hT : 0 < 1/ho + 1/dd + 1/ao := by linarith
  simp only [oddsComputation]
  rw [if_neg (by push_neg; exact ⟨h1.ne', h2.ne', h3.ne'⟩), if_neg hT.ne']
  refine ⟨_, rfl, ?_⟩
  have hsum : (1/ho) / (1/ho + 1/dd + 1/ao) + (1/dd) / (1/ho + 1/dd + 1/ao)
      + (1/ao) / (1/ho + 1/dd + 1/ao) = 1 := by
    rw [div_add_div_same, div_add_div_same, div_self hT.ne']
  have hb1 : 0 ≤ (1/ho) / (1/ho + 1/dd + 1/ao) := div_nonneg hi1.le hT.le
  have hb1' : (1/ho) / (1/ho + 1/dd + 1/ao) ≤ 1 := by
    rw [div_le_one hT]
    linarith
  have hb2 : 0 ≤ (1/dd) / (1/ho + 1/dd + 1/ao) := div_nonneg hi2.le hT.le
  have hb2' : (1/dd) / (1/ho + 1/dd + 1/ao) ≤ 1 := by
    rw [div_le_one hT]
    linarith
  have hb3 : 0 ≤ (1/ao) / (1/ho + 1/dd + 1/ao) := div_nonneg hi3.le hT.le
  have hb3' : (1/ao) / (1/ho + 1/dd + 1/ao) ≤ 1 := by
    rw [div_le_one hT]
    linarith
  have hres := rounded_triple_bounds _ _ _ 0 hb1 hb1' hb2 hb2' hb3 hb3'
    (by rw [abs_le]; constructor <;> linarith)
    (round3 (1 - min ((1/ho) / (1/ho + 1/dd + 1/ao))
      (min ((1/dd) / (1/ho + 1/dd + 1/ao)) ((1/ao) / (1/ho + 1/dd + 1/ao)))))
  rw [show (0 : ℚ) + 3/2000 = 3/2000 from by norm_num] at hres
  exact hres

theorem getD_pos (v : Option ℚ) (d : ℚ) (hd : 0 < d) (hv : ∀ q ∈ v, 0 < q) :
    0 < v.getD d := by
  rcases v with _ | q
  · simpa using hd
  · simpa using hv q rfl

theorem predict_match_odds_based_good (m : Match) (hm : ValidMatch m) :
    ∃ p, predict_match_odds_based m = some p ∧ GoodTriple p (3/2000) := by
  unfold predict_match_odds_based
  by_cases hfb : (m.odds.getD emptyOddsDict).isFalsy = true
  · rw [if_pos hfb]
    exact predict_match_form_based_good m hm
  rw [if_neg hfb]
  obtain ⟨_, _, ho⟩ := hm
  rcases hmo : m.odds with _ | o
  · rw [hmo] at hfb
    exact absurd rfl hfb
  have hop := ho o (by rw [hmo]; rfl)
  obtain ⟨hp1, hp2, hp3⟩ := hop
  simp only [Option.getD_some]
  exact oddsComputation_good _ _ _ (getD_pos _ _ (by norm_num) hp1)
    (getD_pos _ _ (by norm_num) hp2) (getD_pos _ _ (by norm_num) hp3)

theorem predict_match_hybrid_eq (m : Match) (fp op : Prediction)
    (hf : predict_match_form_based m = some fp)
    (ho : predict_match_odds_based m = some op) :
    predict_match_hybrid m
      = some ⟨round3 (6/10 * op.home_prob + 4/10 * fp.home_prob),
              round3 (6/10 * op.draw_prob + 4/10 * fp.draw_prob),
              round3 (6/10 * op.away_prob + 4/10 * fp.away_prob),
              round3 ((op.confidence + fp.confidence) / 2)⟩ := by
  unfold predict_match_hybrid
  rw [hf, ho]
  simp only [Option.bind_eq_bind, Option.some_bind]

theorem predict_match_hybrid_good (m : Match) (hm : ValidMatch m) :
    ∃ p, predict_match_hybrid m = some p ∧ GoodTriple p (3/1000) := by
  obtain ⟨fp, hf, gf⟩ := predict_match_form_based_good m hm
  obtain ⟨op, ho, go⟩ := predict_match_odds_based_good m hm
  obtain ⟨a1, a2, a3, a4, a5, a6, a7⟩ := gf
  obtain ⟨b1, b2, b3, b4, b5, b6, b7⟩ := go
  rw [abs_le] at a7 b7
  refine ⟨_, predict_match_hybrid_eq m fp op hf ho, ?_⟩
  have hres := rounded_triple_bounds
    (6/10 * op.home_prob + 4/10 * fp.home_prob)
    (6/10 * op.draw_prob + 4/10 * fp.draw_prob)
    (6/10 * op.away_prob + 4/10 * fp.away_prob) (3/2000)
    (by linarith) (by linarith) (by linarith) (by linarith) (by linarith) (by linarith)
    (by rw [abs_le]; constructor <;> linarith)
    (round3 ((op.confidence + fp.confidence) / 2))
  rw [show (3 : ℚ)/2000 + 3/2000 = 3/1000 from by norm_num] at hres
  exact hres

/-- Claim C1 (amended): for every match conforming to the data model, each
of the three outcome models returns a probability triple whose components
lie in [0, 1] and whose returned (3-decimal-rounded) components sum to 1.0
within 3e-3.  The original 1e-6 tolerance holds for the pre-rounding sums
but not for the rounded triples as returned. -/
theorem c1_amended_probability_triples (m : Match) (hm : ValidMatch m) :
    (∃ p, predict_match_form_based m = some p ∧ GoodTriple p (3/1000))
    ∧ (∃ p, predict_match_odds_based m = some p ∧ GoodTriple p (3/1000))
    ∧ (∃ p, predict_match_hybrid m = some p ∧ GoodTriple p (3/1000)) := by
  obtain ⟨p1, h1, g1⟩ := predict_match_form_based_good m hm
  obtain ⟨p2, h2, g2⟩ := predict_match_odds_based_good m hm
  obtain ⟨p3, h3, g3⟩ := predict_match_hybrid_good m hm
  exact ⟨⟨p1, h1, g1.mono (by norm_num)⟩, ⟨p2, h2, g2.mono (by norm_num)⟩,
    ⟨p3, h3, g3⟩⟩

/-- Witness for C1 (amended) at the match with no histories and no odds. -/
theorem c1_amended_probability_triples_witness :
    (∃ p, predict_match_form_based ⟨none, none, none⟩ = some p ∧ GoodTriple p (3/1000))
    ∧ (∃ p, predict_match_odds_based ⟨none, none, none⟩ = some p ∧ GoodTriple p (3/1000))
    ∧ (∃ p, predict_match_hybrid ⟨none, none, none⟩ = some p ∧ GoodTriple p (3/1000)) :=
  c1_amended_probability_triples ⟨none, none, none⟩
    ⟨by simp [ValidHistory, histForm], by simp [ValidHistory, histForm], by simp⟩

/-- Counterexample to C1 as stated: at a match whose three prices are all
3.0 the odds model returns the triple (0.333, 0.333, 0.333), and its sum
0.999 is not within 1e-6 of 1.0. -/
theorem c1_counterexample :
    predict_match_odds_based ⟨none, none, some ⟨some 3, some 3, some 3, true⟩⟩
      = some ⟨333/1000, 333/1000, 333/1000, 667/1000⟩
    ∧ ¬ |(333 : ℚ)/1000 + 333/1000 + 333/1000 - 1| ≤ 1/1000000 := by
  constructor
  · unfold predict_match_odds_based
    simp only [Option.getD_some]
    rw [if_neg (by simp [OddsDict.isFalsy])]
    simp only [oddsComputation, Option.getD_some]
    rw [if_neg (by norm_num), if_neg (by norm_num)]
    rw [show (1 : ℚ)/3 / (1/3 + 1/3 + 1/3) = 1/3 from by norm_num]
    rw [min_self, min_self]
    rw [show (1 : ℚ) - 1/3 = 2/3 from by norm_num]
    rw [round3_eq_of_lt (1/3) 333 (by norm_num) (by norm_num),
        round3_eq_of_gt (2/3) 666 (by norm_num) (by norm_num)]
    norm_num
  · intro hcon
    rw [abs_le] at hcon
    have hc := hcon.1
    norm_num at hc

/-!
Claim C3: the hybrid blend.
-/

/-- Claim C3: for every match on which the two base models return, the
hybrid triple is the componentwise blend `0.6 * odds + 0.4 * form` of the
returned (3-decimal-rounded) triples, each component rounded to 3 decimals,
and the hybrid confidence is the rounded average of the two
confidences. -/
theorem c3_hybrid_blend (m : Match) (fp op : Prediction)
    (hf : predict_match_form_based m = some fp)
    (ho : predict_match_odds_based m = some op) :
    predict_match_hybrid m
      = some ⟨round3 (6/10 * op.home_prob + 4/10 * fp.home_prob),
              round3 (6/10 * op.draw_prob + 4/10 * fp.draw_prob),
              round3 (6/10 * op.away_prob + 4/10 * fp.away_prob),
              round3 ((op.confidence + fp.confidence) / 2)⟩ :=
  predict_match_hybrid_eq m fp op hf ho

theorem form_based_empty_eval :
    predict_match_form_based ⟨none, none, none⟩
      = some ⟨483/1000, 91/1000, 426/1000, 0⟩ := by
  have hcf : calculate_form_score (histForm (⟨none, none, none⟩ : Match).home_team_history)
      = some (1/2) := by simp [calculate_form_score, histForm]
  have hca : calculate_form_score (histForm (⟨none, none, none⟩ : Match).away_team_history)
      = some (1/2) := by simp [calculate_form_score, histForm]
  have h := predict_match_form_based_eq ⟨none, none, none⟩ (1/2) (1/2)
    (117/220) (103/220) (1/10) (11/10) hcf hca (by norm_num)
    (by norm_num) (by norm_num)
    (by rw [show (1 : ℚ) - 117/220 - 103/220 = 0 from by norm_num]
        exact (max_eq_left (by norm_num)).symm)
    (by norm_num) (by norm_num)
  rw [h]
  rw [show (117 : ℚ)/220 / (11/10) = 117/242 from by norm_num,
      show (1 : ℚ)/10 / (11/10) = 1/11 from by norm_num,
      show (103 : ℚ)/220 / (11/10) = 103/242 from by norm_num,
      show |(1 : ℚ)/2 - 1/2| = 0 from by norm_num]
  rw [round3_eq_of_lt (117/242) 483 (by norm_num) (by norm_num),
      round3_eq_of_gt (1/11) 90 (by norm_num) (by norm_num),
      round3_eq_of_gt (103/242) 425 (by norm_num) (by norm_num),
      round3_eq_of_lt 0 0 (by norm_num) (by norm_num)]
  norm_num

theorem odds_based_empty_eval :
    predict_match_odds_based ⟨none, none, none⟩
      = some ⟨483/1000, 91/1000, 426/1000, 0⟩ :=
  form_based_empty_eval

/-- Witness for C3 at the match with no histories and no odds: both base
models return the triple (0.483, 0.091, 0.426) with confidence 0, and the
hybrid output is the rounded blend of those returned values. -/
theorem c3_hybrid_blend_witness :
    predict_match_hybrid ⟨none, none, none⟩
      = some ⟨round3 (6/10 * (483/1000) + 4/10 * (483/1000)),
              round3 (6/10 * (91/1000) + 4/10 * (91/1000)),
              round3 (6/10 * (426/1000) + 4/10 * (426/1000)),
              round3 ((0 + 0) / 2)⟩ :=
  c3_hybrid_blend ⟨none, none, none⟩ ⟨483/1000, 91/1000, 426/1000, 0⟩
    ⟨483/1000, 91/1000, 426/1000, 0⟩ form_based_empty_eval odds_based_empty_eval

/-!
Claim C7: shape of the generated combinations.
-/

theorem get_match_prediction_form (m : Match) :
    get_match_prediction m "form_based"
      = (predict_match_form_based m).map fun p => (maxSymbol p, p) := by
  unfold get_match_prediction
  rw [if_pos rfl]

theorem get_match_prediction_odds (m : Match) :
    get_match_prediction m "odds_based"
      = (predict_match_odds_based m).map fun p => (maxSymbol p, p) := by
  unfold get_match_prediction
  rw [if_neg (by decide), if_pos rfl]

theorem get_match_prediction_hybrid (m : Match) :
    get_match_prediction m "hybrid"
      = (predict_match_hybrid m).map fun p => (maxSymbol p, p) := by
  unfold get_match_prediction
  rw [if_neg (by decide), if_neg (by decide)]

theorem maxSymbol_mem (p : Prediction) :
    maxSymbol p = '1' ∨ maxSymbol p = 'X' ∨ maxSymbol p = '2' := by
  rcases le_or_lt p.draw_prob p.home_prob with h1 | h1
  · rcases le_or_lt p.away_prob p.home_prob with h2 | h2
    · exact Or.inl (maxSymbol_eq_one p h1 h2)
    · exact Or.inr (Or.inr (maxSymbol_eq_two p (by rw [max_eq_left h1]; exact h2)))
  · rcases le_or_lt p.away_prob p.draw_prob with h2 | h2
    · exact Or.inr (Or.inl (maxSymbol_eq_draw p h1 h2))
    · exact Or.inr (Or.inr (maxSymbol_eq_two p (by rw [max_eq_right h1.le]; exact h2)))

theorem conservativeChoice_mem (p : Prediction) :
    conservativeChoice p = '1' ∨ conservativeChoice p = 'X' ∨ conservativeChoice p = '2' := by
  unfold conservativeChoice
  split_ifs <;> simp

theorem option_bind2_eq_some {α β γ : Type} {f : Option α} {g : Option β}
    {k : α → β → γ} {y : γ}
    (h : (do let a ← f; let b ← g; some (k a b)) = some y) :
    ∃ a b, f = some a ∧ g = some b ∧ k a b = y := by
  rcases f with _ | a
  · exact absurd h (by simp)
  rcases g with _ | b
  · exact absurd h (by simp)
  refine ⟨a, b, rfl, rfl, ?_⟩
  simpa using h

theorem traverseOption_some {α β : Type} (f : α → Option β) :
    ∀ l : List α, (∀ a ∈ l, ∃ b, f a = some b) →
      ∃ ys, traverseOption f l = some ys ∧ ys.length = l.length
        ∧ ∀ y ∈ ys, ∃ a ∈ l, f a = some y := by
  intro l
  induction l with
  | nil => exact fun _ => ⟨[], rfl, rfl, by simp⟩
  | cons a as ih =>
    intro h
    obtain ⟨b, hb⟩ := h a (by simp)
    obtain ⟨ys, hys, hlen, hmem⟩ := ih fun x hx => h x (by simp [hx])
    refine ⟨b :: ys, ?_, by simp [hlen], ?_⟩
    · simp only [traverseOption, hb, hys, Option.bind_eq_bind, Option.some_bind]
    · intro y hy
      rcases List.mem_cons.mp hy with rfl | hy'
      · exact ⟨a, by simp, hb⟩
      · obtain ⟨x, hx, hfx⟩ := hmem y hy'
        exact ⟨x, by simp [hx], hfx⟩

/-- Claim C7: for every list of valid input matches the generator returns
exactly three combinations, in order Hybrid, Conservative, Value; each
combination's outcome sequence has exactly one symbol per input match, in
match order, and every symbol is `'1'`, `'X'` or `'2'`. -/
theorem c7_combinations (matchList : List Match)
    (hv : ∀ m ∈ matchList, ValidMatch m) :
    ∃ cs, generate_stryktipset_combinations matchList = some cs
      ∧ cs.length = 3
      ∧ cs.map PredictionCombination.method
          = ["Hybrid Prediction", "Conservative", "Value Betting"]
      ∧ (∀ c ∈ cs, c.combination.length = matchList.length)
      ∧ (∀ c ∈ cs, ∀ s ∈ c.combination, s = '1' ∨ s = 'X' ∨ s = '2') := by
  have hhy : ∀ m ∈ matchList, ∃ r, get_match_prediction m "hybrid" = some r := by
    intro m hm
    obtain ⟨p, hp, _⟩ := predict_match_hybrid_good m (hv m hm)
    exact ⟨(maxSymbol p, p), by rw [get_match_prediction_hybrid, hp]; rfl⟩
  obtain ⟨hyRes, hHy, hHyLen, hHyMem⟩ :=
    traverseOption_some (fun m => get_match_prediction m "hybrid") matchList hhy
  have hval : ∀ m ∈ matchList, ∃ r, (do
      let form_result ← get_match_prediction m "form_based"
      let odds_result ← get_match_prediction m "odds_based"
      some (valueChoice form_result odds_result) : Option Char) = some r := by
    intro m hm
    obtain ⟨fp, hfp, _⟩ := predict_match_form_based_good m (hv m hm)
    obtain ⟨op, hop, _⟩ := predict_match_odds_based_good m (hv m hm)
    refine ⟨valueChoice (maxSymbol fp, fp) (maxSymbol op, op), ?_⟩
    rw [get_match_prediction_form, get_match_prediction_odds, hfp, hop]
    rfl
  obtain ⟨valRes, hVal, hValLen, hValMem⟩ := traverseOption_some _ matchList hval
  have hgen : generate_stryktipset_combinations matchList = some
      [⟨"Hybrid Prediction", hyRes.map Prod.fst,
          "Most likely outcome for each match", "Medium"⟩,
       ⟨"Conservative", hyRes.map fun r => conservativeChoice r.2,
          "Safer picks favoring draws and home wins", "High"⟩,
       ⟨"Value Betting", valRes,
          "Looking for odds vs form discrepancies", "Low"⟩] := by
    unfold generate_stryktipset_combinations
    rw [hHy, hVal]
    rfl
  refine ⟨_, hgen, rfl, rfl, ?_, ?_⟩
  · intro c hc
    fin_cases hc
    · simpa using hHyLen
    · simpa using hHyLen
    · simpa using hValLen
  · intro c hc s hs
    fin_cases hc
    · obtain ⟨r, hr, rfl⟩ := List.mem_map.mp hs
      obtain ⟨m, _, hgm⟩ := hHyMem r hr
      rw [get_match_prediction_fst m "hybrid" r hgm]
      exact maxSymbol_mem r.2
    · obtain ⟨r, hr, rfl⟩ := List.mem_map.mp hs
      exact conservativeChoice_mem r.2
    · obtain ⟨m, hm, hfm⟩ := hValMem s hs
      obtain ⟨a, b, ha, hb, hk⟩ := option_bind2_eq_some hfm
      rw [← hk]
      have ha1 := get_match_prediction_fst m "form_based" a ha
      have hb1 := get_match_prediction_fst m "odds_based" b hb
      unfold valueChoice
      split_ifs
      · rw [ha1]
        exact maxSymbol_mem a.2
      · rw [hb1]
        exact maxSymbol_mem b.2

/-- Witness for C7 at the empty match list: three combinations with empty
outcome sequences. -/
theorem c7_combinations_witness :
    ∃ cs, generate_stryktipset_combinations [] = some cs
      ∧ cs.length = 3
      ∧ cs.map PredictionCombination.method
          = ["Hybrid Prediction", "Conservative", "Value Betting"]
      ∧ (∀ c ∈ cs, c.combination.length = ([] : List Match).length)
      ∧ (∀ c ∈ cs, ∀ s ∈ c.combination, s = '1' ∨ s = 'X' ∨ s = '2') :=
  c7_combinations [] (by simp)

/-!
Claim C2: behaviour of the run on a failed store read.
-/

/-- Counterexample to C2 as stated: a store failure during the match read
is not propagated; the run returns `Except.ok none`, the very outcome of
the empty-input condition, so the two are not reported distinctly. -/
theorem c2_counterexample :
    run_prediction_engine (Except.error "connection refused") (Except.ok ())
      = Except.ok none
    ∧ run_prediction_engine (Except.error "connection refused") (Except.ok ())
      = run_prediction_engine (Except.ok []) (Except.ok ()) :=
  ⟨rfl, rfl⟩

/-- Claim C2 (amended): any failure of the store read is caught inside
`load_current_matches` and converted to the empty list, so the run reports
the empty-input outcome (no predictions, no error) instead of terminating
with the error; at the caller this outcome is identical to that of an
empty matches table. -/
theorem c2_amended_read_failure (e : String) (storeOutcome : Except String Unit) :
    run_prediction_engine (Except.error e) storeOutcome = Except.ok none
    ∧ run_prediction_engine (Except.error e) storeOutcome
      = run_prediction_engine (Except.ok []) storeOutcome :=
  ⟨rfl, rfl⟩
